import Mathlib

set_option autoImplicit false

/-! Verification of the Cyberpunk 2077 Vortex extension installer pipeline.

The embedding follows the win32 path conventions the source pins (`const path = win32`)
with backslash as the only separator. Paths are modelled as `String`; the few path
operations the installers use (`extname`, `basename`, `dirname`, `join`, prefix tests,
first-occurrence `String.replace`) are defined below on the underlying character lists.
The FileTree module (filetree.ts) and a few shared helpers are not among the provided
sources; those definitions are modelled from the spec and say so in their doc comments. -/

/-- The win32 path separator character (path.sep). -/
def sepChar : Char := '\\'

/-- The win32 path separator as a string (path.sep). -/
def sepStr : String := "\\"

/-- Boolean test that the first character list is a prefix of the second. -/
def lpre : List Char → List Char → Bool
  | [], _ => true
  | _ :: _, [] => false
  | a :: as, b :: bs => a == b && lpre as bs

/-- JS String.endsWith(path.sep): the last character is the separator. -/
def endsWithSepB (s : String) : Bool := s.data.reverse.head? == some sepChar

/-- JS String.startsWith(path.sep): the first character is the separator. -/
def startsWithSepB (s : String) : Bool := s.data.head? == some sepChar

/-- Characters of path.basename: the longest suffix without a separator. Faithful for
    relative win32 paths that do not end in a separator (sources ending in the separator
    are directory markers, dropped before any basename use in the embedded functions). -/
def basenameChars (l : List Char) : List Char :=
  (l.reverse.takeWhile (fun c => c != sepChar)).reverse

/-- path.basename on a path string. -/
def basenameStr (s : String) : String := ⟨basenameChars s.data⟩

/-- Characters of path.extname: the final dot of the basename and everything after it;
    empty when the basename has no dot or its only dot is the leading character. -/
def extnameChars (l : List Char) : List Char :=
  let b := basenameChars l
  let afterDot := b.reverse.takeWhile (fun c => c != '.')
  if afterDot.length = b.length then []
  else if b.length = afterDot.length + 1 then []
  else '.' :: afterDot.reverse

/-- path.extname on a path string. -/
def extnameStr (s : String) : String := ⟨extnameChars s.data⟩

/-- path.dirname for relative win32 paths: everything before the final separator, or the
    dot path when the path has no separator. -/
def dirnameStr (s : String) : String :=
  if s.data.contains sepChar then
    ⟨s.data.take (s.data.length - ((basenameChars s.data).length + 1))⟩
  else "."

/-- path.win32.join of two already-backslash-normalized parts: concatenation with exactly
    one separator between them, preserving an existing trailing or leading separator
    (the only joins the sources perform; no dot-segment normalization is needed). -/
def joinP (a b : String) : String :=
  if a = "" then b
  else if b = "" then a
  else if endsWithSepB a then (if startsWithSepB b then a ++ (⟨b.data.drop 1⟩ : String) else a ++ b)
  else if startsWithSepB b then a ++ b
  else a ++ sepStr ++ b

/-- JS String.replace with a string pattern: replace only the first (leftmost) occurrence
    of pat, leaving the string unchanged when pat does not occur. -/
def replaceFirstChars (pat rep : List Char) : List Char → List Char
  | [] => []
  | c :: cs =>
    if lpre pat (c :: cs) then rep ++ (c :: cs).drop pat.length
    else c :: replaceFirstChars pat rep cs

/-- JS String.replace with a string pattern, on path strings. -/
def replaceFirstStr (s pat rep : String) : String := ⟨replaceFirstChars pat.data rep.data s.data⟩

/-- JS String.includes: pat occurs as a contiguous substring. -/
def containsSub (pat : List Char) : List Char → Bool
  | [] => lpre pat []
  | c :: cs => lpre pat (c :: cs) || containsSub pat cs

/-- JS toLowerCase, as a character map (ASCII case folding; every string the embedded
    functions compare after lowercasing is ASCII). -/
def toLowerStr (s : String) : String := ⟨s.data.map Char.toLower⟩

/-- The suffix after the last occurrence of pat, when pat occurs. -/
def afterLastOccur (pat : List Char) : List Char → Option (List Char)
  | [] => if pat.isEmpty then some [] else none
  | c :: cs =>
    match afterLastOccur pat cs with
    | some r => some r
    | none => if lpre pat (c :: cs) then some ((c :: cs).drop pat.length) else none

/-! ## Instructions (spec section 3) -/

/-- Vortex install instruction: copy, generatefile or mkdir. -/
inductive VortexInstruction where
  | copy (source : String) (destination : String)
  | generatefile (data : String) (destination : String)
  | mkdir (destination : String)
  deriving DecidableEq, Repr

/-- The destination field, common to all instruction variants. -/
def VortexInstruction.destOf : VortexInstruction → String
  | .copy _ d => d
  | .generatefile _ d => d
  | .mkdir d => d

/-- The source field, present only on copy instructions. -/
def VortexInstruction.sourceOf : VortexInstruction → Option String
  | .copy s _ => some s
  | _ => none

/-! ## Shared installer helpers (installers.ts) -/

/-- Source: toSamePath in installers.ts. -/
def toSamePath (f : String) : String × String := (f, f)

/-- Source: toDirInPath in installers.ts. -/
def toDirInPath (prefixPath dir : String) (f : String) : String × String :=
  (f, joinP (joinP prefixPath dir) (basenameStr f))

/-- Source: instructionsForSourceToDestPairs in installers.ts (lines 211-231): drops
    directory markers (sources ending in the separator) and emits one copy instruction per
    remaining pair. The deduplication mentioned in its comment is commented out in the
    source and is not performed. -/
def instructionsForSourceToDestPairs (srcAndDestPairs : List (String × String)) :
    List VortexInstruction :=
  (srcAndDestPairs.filter (fun p => !endsWithSepB p.1)).map
    (fun p => VortexInstruction.copy p.1 p.2)

/-- Source: instructionsForSameSourceAndDestPaths in installers.ts. -/
def instructionsForSameSourceAndDestPaths (files : List String) : List VortexInstruction :=
  instructionsForSourceToDestPairs (files.map toSamePath)

/-! ## Layout constants (installers.ts; names ending in PREFIX in the source) -/

def GAME_ID : String := "cyberpunk2077"

def CET_MOD_CANONICAL_INIT_FILE : String := "init.lua"

/-- Source name: CET_MOD_CANONICAL_PATH_PREFIX. -/
def CET_MOD_CANONICAL_PATH_PFX : String := "bin\\x64\\plugins\\cyber_engine_tweaks\\mods"

def REDS_MOD_CANONICAL_EXTENSION : String := ".reds"

/-- Source name: REDS_MOD_CANONICAL_PATH_PREFIX. -/
def REDS_MOD_CANONICAL_PATH_PFX : String := "r6\\scripts"

def ARCHIVE_ONLY_CANONICAL_EXT : String := ".archive"

/-- Source name: ARCHIVE_ONLY_CANONICAL_PREFIX (normalize of archive/pc/mod/). -/
def ARCHIVE_ONLY_CANONICAL_PFX : String := "archive\\pc\\mod\\"

/-- Source name: ARCHIVE_ONLY_TRADITIONAL_WRONG_PREFIX (normalize of archive/pc/patch/). -/
def ARCHIVE_ONLY_TRADITIONAL_WRONG_PFX : String := "archive\\pc\\patch\\"

def MOD_FILE_EXT : String := ".archive"

def INI_MOD_PATH : String := "engine\\config\\platform\\pc"

def INI_MOD_EXT : String := ".ini"

def RESHADE_MOD_PATH : String := "bin\\x64"

def SHADERS_DIR : String := "reshade-shaders"

def CET_GLOBAL_INI : String := "bin\\x64\\global.ini"

def JSON_FILE_EXT : String := ".json"

/-- Source: the KNOWN_JSON_FILES table in installers.ts, as a lookup by basename. -/
def knownJsonFiles (b : String) : Option String :=
  if b == "giweights.json" then some "engine\\config\\giweights.json"
  else if b == "bumpersSettings.json" then some "r6\\config\\bumpersSettings.json"
  else none

/-- Source: matchRedscript in installers.ts. -/
def matchRedscript (f : String) : Bool := extnameStr f == REDS_MOD_CANONICAL_EXTENSION

/-- Source: matchArchive in installers.ts. -/
def matchArchive (f : String) : Bool := extnameStr f == ARCHIVE_ONLY_CANONICAL_EXT

/-- Source: makeModName in installers.ts (lines 131-132), identical to makeSyntheticName:
    path.basename(destinationPath, ".installing") strips a trailing .installing suffix
    from the basename unless the basename is exactly that suffix. -/
def makeModName (vortexDestinationPath : String) : String :=
  let b := basenameChars vortexDestinationPath.data
  let suf := ".installing".data
  if b != suf && suf.isSuffixOf b then ⟨b.take (b.length - suf.length)⟩ else ⟨b⟩

/-! ## FileTree (modelled from the spec)

The FileTree module (filetree.ts) is not among the provided sources; per spec section 4.2
a FileTree is a read-only view over the set of relative paths it was constructed from, so
we model it as that list of paths, and each query below is modelled from its spec
contract. -/

/-- Modelled from the spec: a FileTree is a pure function of the input path list. -/
abbrev FileTree := List String

/-- Modelled from the spec: fileTreeFromPaths. -/
def fileTreeFromPaths (paths : List String) : FileTree := paths

/-- Modelled from the spec: the empty string denotes the tree root. -/
def FILETREE_ROOT : String := ""

/-- The directory path with exactly one trailing separator (empty for the root), used for
    the prefixOf tests of spec section 4.1. -/
def dirPfxChars (dir : String) : List Char :=
  if dir = "" then []
  else if endsWithSepB dir then dir.data
  else dir.data ++ [sepChar]

/-- Modelled from the spec: a path lies (transitively) under a directory when it begins
    with the directory plus separator; every nonempty path lies under the root. -/
def underDirB (dir f : String) : Bool :=
  if dir = "" then f != "" else lpre (dirPfxChars dir) f.data

/-- Modelled from the spec: a path lies directly in a directory when it extends it by a
    single basename with no further separator. -/
def directlyInB (dir f : String) : Bool :=
  underDirB dir f && !((f.data.drop (dirPfxChars dir).length).contains sepChar)

/-- The Glob.Any path filter: accepts every path. -/
def globAny : String → Bool := fun _ => true

/-- Modelled from the spec: filesIn dir filter tree, the files directly in dir matching
    the filter; directory markers (paths ending in the separator) are excluded. -/
def filesIn (dir : String) (filt : String → Bool) (t : FileTree) : List String :=
  t.filter (fun f => !endsWithSepB f && directlyInB dir f && filt f)

/-- Modelled from the spec: filesUnder dir filter tree, all files transitively under dir
    matching the filter; directory markers are excluded. -/
def filesUnder (dir : String) (filt : String → Bool) (t : FileTree) : List String :=
  t.filter (fun f => !endsWithSepB f && underDirB dir f && filt f)

/-- Modelled from the spec: dirWithSomeIn, the existence form of filesIn. -/
def dirWithSomeIn (dir : String) (filt : String → Bool) (t : FileTree) : Bool :=
  t.any (fun f => !endsWithSepB f && directlyInB dir f && filt f)

/-- Modelled from the spec: dirWithSomeUnder, the existence form of filesUnder. -/
def dirWithSomeUnder (dir : String) (filt : String → Bool) (t : FileTree) : Bool :=
  t.any (fun f => !endsWithSepB f && underDirB dir f && filt f)

/-- The immediate child directory of dir on the way to path f, when f lies at least two
    levels below dir. -/
def childDirOf (dir f : String) : Option String :=
  if underDirB dir f then
    let rest := f.data.drop (dirPfxChars dir).length
    if rest.contains sepChar then
      some ⟨dirPfxChars dir ++ rest.takeWhile (fun c => c != sepChar)⟩
    else none
  else none

/-- First-occurrence deduplication preserving order (JS Set and Map key iteration order). -/
def dedupFirstAux (seen : List String) : List String → List String
  | [] => []
  | x :: xs => if seen.contains x then dedupFirstAux seen xs else x :: dedupFirstAux (x :: seen) xs

/-- First-occurrence deduplication preserving order. -/
def dedupFirst (l : List String) : List String := dedupFirstAux [] l

/-- Modelled from the spec: findDirectSubdirsWithSome dir pred tree, the immediate
    children of dir that directly contain at least one file matching pred. -/
def findDirectSubdirsWithSome (dir : String) (filt : String → Bool) (t : FileTree) :
    List String :=
  (dedupFirst (t.filterMap (fun f => childDirOf dir f))).filter
    (fun d => dirWithSomeIn d filt t)

/-- All proper nonempty ancestor directories of a path, shallowest first; pre is the
    reversed prefix of characters already consumed. -/
def ancestorsAux (pre : List Char) : List Char → List (List Char)
  | [] => []
  | c :: cs =>
    if c == sepChar then pre.reverse :: ancestorsAux (c :: pre) cs
    else ancestorsAux (c :: pre) cs

/-- Modelled from the spec: every directory present in the tree (ancestors of every path),
    deduplicated in first-appearance order; the root itself is not included. -/
def allDirsIn (t : FileTree) : List String :=
  dedupFirst (t.flatMap (fun f => (ancestorsAux [] f.data).map (fun l => (⟨l⟩ : String))))

/-- Modelled from the spec: findAllSubdirsWithSome root pred tree, every descendant
    directory of root containing a direct match. -/
def findAllSubdirsWithSome (dir : String) (filt : String → Bool) (t : FileTree) :
    List String :=
  (allDirsIn t).filter
    (fun d => (if dir = "" then true else underDirB dir d) && dirWithSomeIn d filt t)

/-! ## Vortex test results -/

/-- The result shape of a Vortex testSupported call. -/
structure VortexTestResult where
  supported : Bool
  requiredFiles : List String
  deriving DecidableEq, Repr

/-! ## JSON installer (installers.ts lines 871-999) -/

/-- The two validation failures testForJsonMod rejects with. The source rejects the
    returned promise with an Error whose message is, respectively, the string
    "Improperly located options.json file found.  We don..t know where it belongs."
    (with an apostrophe in don..t, mentioning options.json) and the string
    "Found JSON files that are not part of the game." (modulo contraction). -/
inductive JsonTestError where
  | improperlyLocatedOptionsJson
  | unknownJsonFiles
  deriving DecidableEq, Repr

/-- Source: testForJsonMod in installers.ts (lines 871-948). Promise rejection is
    modelled as Except.error naming which validation error message is raised. -/
def testForJsonMod (files : List String) (gameId : String) :
    Except JsonTestError VortexTestResult :=
  if gameId != GAME_ID then .ok ⟨false, []⟩
  else
    let filtered := files.filter (fun f => toLowerStr (extnameStr f) == JSON_FILE_EXT)
    if filtered.isEmpty then .ok ⟨false, []⟩
    else
      let cetModJson := files.filter
        (fun f => toLowerStr (basenameStr f) == CET_MOD_CANONICAL_INIT_FILE)
      if !cetModJson.isEmpty then .ok ⟨false, []⟩
      else
        let options := filtered.any (fun f => basenameStr f == "options.json")
        if options then
          let proper := filtered.any
            (fun f => lpre "r6\\config\\settings".data (toLowerStr (dirnameStr f)).data)
          if !proper then .error .improperlyLocatedOptionsJson
          else .ok ⟨true, []⟩
        else if filtered.any (fun f => knownJsonFiles (basenameStr f) == none) then
          .error .unknownJsonFiles
        else .ok ⟨true, []⟩

/-- Source: installJsonMod in installers.ts (lines 950-999): one copy instruction per
    json/txt/md file, relocating known basenames via the KNOWN_JSON_FILES table. It
    never rejects. -/
def installJsonMod (files : List String) : List VortexInstruction :=
  let jsonFiles := files.filter (fun f => extnameStr f == ".json")
  let otherAllowedFiles := files.filter
    (fun f => extnameStr f == ".txt" || extnameStr f == ".md")
  let filtered := jsonFiles ++ otherAllowedFiles
  filtered.map (fun file =>
    let instPath :=
      match knownJsonFiles (basenameStr file) with
      | some p => p
      | none => file
    VortexInstruction.copy file instPath)

/-! ## INI / Reshade installer (installers.ts lines 1002-1142) -/

/-- The JS regex dot: any character except a line terminator. -/
def jsDot (c : Char) : Bool := c != '\n' && c != '\r' && c != '\u2028' && c != '\u2029'

/-- One application of data.replace(regex, emptyString) for the head regex of
    testForReshadeFile (open bracket or hash, then one-or-more dots, anchored at the
    start): when the head matches, the greedy nonempty match is removed; otherwise the
    content is returned unchanged. -/
def replaceReshadeHeadRegex (data : String) : String :=
  match data.data with
  | c1 :: c2 :: cs =>
    if (c1 == '[' || c1 == '#') && jsDot c2 then ⟨(c2 :: cs).dropWhile jsDot⟩ else data
  | _ => data

/-- True exactly when the head of the content matches the regex of testForReshadeFile
    (a Reshade-style section header or comment line). -/
def reshadeHeadRegexMatches (data : String) : Bool :=
  match data.data with
  | c1 :: c2 :: _ => (c1 == '[' || c1 == '#') && jsDot c2
  | _ => false

/-- Source: testForReshadeFile in installers.ts (lines 1002-1030). The source reads the
    first .ini file of the list from the staging folder (external I/O); the read content
    is modelled as the parameter. The source returns true exactly when replacing the head
    regex leaves the content unchanged, i.e. when the head does NOT match. -/
def testForReshadeFile (iniContent : String) : Bool :=
  replaceReshadeHeadRegex iniContent == iniContent

/-- Source: the shader renaming file.replace of the greedy regex dot-star-then-
    reshade-shaders by the string reshade-shaders: everything through the last occurrence
    is replaced (faithful for paths, which contain no line terminators). -/
def shaderRename (f : String) : String :=
  match afterLastOccur SHADERS_DIR.data f.data with
  | some r => ⟨SHADERS_DIR.data ++ r⟩
  | none => f

/-- Source: installIniMod in installers.ts (lines 1087-1142). The reshade flag comes from
    testForReshadeFile on the first .ini file read from disk; that content is the
    iniContent parameter (the source presupposes at least one .ini file in the list). -/
def installIniMod (files : List String) (iniContent : String) : List VortexInstruction :=
  let allIniModFiles := files.filter (fun f => extnameStr f == INI_MOD_EXT)
  let reshade := testForReshadeFile iniContent
  let iniFileInstructions := allIniModFiles.map (fun file =>
    let dest :=
      if reshade then joinP RESHADE_MOD_PATH (basenameStr file)
      else joinP INI_MOD_PATH (basenameStr file)
    VortexInstruction.copy file dest)
  let shaderFiles := files.filter
    (fun f => containsSub SHADERS_DIR.data f.data && !endsWithSepB f)
  let shaderInstructions :=
    if reshade && !shaderFiles.isEmpty then
      shaderFiles.map (fun file =>
        VortexInstruction.copy file (joinP RESHADE_MOD_PATH (shaderRename file)))
    else []
  iniFileInstructions ++ shaderInstructions

/-! ## Fallback installer (installers.ts lines 1152-1203) -/

/-- Source: testAnyOtherModFallback in installers.ts (lines 1152-1181): supported for any
    file list exactly when the game id is cyberpunk2077. -/
def testAnyOtherModFallback (_files : List String) (gameId : String) : VortexTestResult :=
  if gameId != GAME_ID then ⟨false, []⟩ else ⟨true, []⟩

/-- Source: installAnyModWithBasicFixes in installers.ts (lines 1188-1203): a verbatim
    copy instruction for every input file (directory markers dropped by
    instructionsForSourceToDestPairs); the Boolean component records that the
    fallback-reached dialog is always surfaced. It always resolves. -/
def installAnyModWithBasicFixes (files : List String) : List VortexInstruction × Bool :=
  (instructionsForSameSourceAndDestPaths files, true)

/-! ## CET and mixed Red+CET detectors (installers.ts lines 277-442)

Both detectors build a KeyTree keyed by the full path of every file and look up the node
at the CET canonical prefix; a named mod dir with an init.lua exists exactly when some
input path extends prefix, name, init.lua as a key path. -/

/-- KeyTree condition of the CET detectors: the moddir node has a child with an init.lua
    child, i.e. some input file path extends the CET canonical prefix by a name segment
    followed by the init.lua segment. -/
def hasCetFilesInANamedModDir (files : List String) : Bool :=
  files.any (fun f =>
    let pfx := dirPfxChars CET_MOD_CANONICAL_PATH_PFX
    lpre pfx f.data &&
      (let rest := f.data.drop pfx.length
       let child := rest.takeWhile (fun c => c != sepChar)
       let rest2 := rest.drop (child.length + 1)
       rest.contains sepChar &&
         (rest2 == CET_MOD_CANONICAL_INIT_FILE.data ||
           lpre (CET_MOD_CANONICAL_INIT_FILE.data ++ [sepChar]) rest2)))

/-- KeyTree condition of the CET detectors: the moddir node exists and has children,
    i.e. some input key path strictly extends the CET canonical prefix. -/
def cetModdirHasChildren (files : List String) : Bool :=
  files.any (fun f =>
    let pfx := dirPfxChars CET_MOD_CANONICAL_PATH_PFX
    lpre pfx f.data && !(f.data.drop pfx.length).isEmpty)

/-- Source: allRedscriptFiles in installers.ts. -/
def allRedscriptFiles (files : List String) : List String := files.filter matchRedscript

/-- Source: testForCetMod in installers.ts (lines 412-442); the returned Bool is the
    supported flag (requiredFiles is always empty). -/
def testForCetMod (files : List String) : Bool :=
  if !cetModdirHasChildren files then false
  else hasCetFilesInANamedModDir files

/-- Source: testForRedCetMixedMod in installers.ts (lines 277-309); the returned Bool is
    the supported flag (requiredFiles is always empty). -/
def testForRedCetMixedMod (files : List String) : Bool :=
  if !cetModdirHasChildren files then false
  else if hasCetFilesInANamedModDir files && (allRedscriptFiles files).isEmpty then false
  else hasCetFilesInANamedModDir files

/-! ## ArchiveOnly installer (installers.ts lines 685-867) -/

/-- Source: the ArchiveLayouts enum in installers.ts. -/
inductive ArchiveLayouts where
  | Canon
  | Heritage
  | Other
  | Invalid
  deriving DecidableEq, Repr

/-- Source: the kinded Instructions record of installers.ts (lines 692-695),
    specialized to ArchiveLayouts. -/
structure ArchiveInstructions where
  kind : ArchiveLayouts
  instructions : List VortexInstruction
  deriving DecidableEq, Repr

/-- Source: archiveCanonInstructions in installers.ts (lines 699-718). -/
def archiveCanonInstructions (fileTree : FileTree) : ArchiveInstructions :=
  let hasCanonFiles := dirWithSomeUnder ARCHIVE_ONLY_CANONICAL_PFX matchArchive fileTree
  if !hasCanonFiles then ⟨.Canon, []⟩
  else
    ⟨.Canon, instructionsForSameSourceAndDestPaths
       (filesUnder ARCHIVE_ONLY_CANONICAL_PFX globAny fileTree)⟩

/-- Source: archiveOldToNewCanonInstructions in installers.ts (lines 720-750). -/
def archiveOldToNewCanonInstructions (fileTree : FileTree) : ArchiveInstructions :=
  let hasOldCanonFiles :=
    dirWithSomeUnder ARCHIVE_ONLY_TRADITIONAL_WRONG_PFX matchArchive fileTree
  if !hasOldCanonFiles then ⟨.Heritage, []⟩
  else
    let oldCanonFiles := filesUnder ARCHIVE_ONLY_TRADITIONAL_WRONG_PFX globAny fileTree
    let oldToNewMap := oldCanonFiles.map (fun f =>
      (f, replaceFirstStr f ARCHIVE_ONLY_TRADITIONAL_WRONG_PFX ARCHIVE_ONLY_CANONICAL_PFX))
    ⟨.Heritage, instructionsForSourceToDestPairs oldToNewMap⟩

/-- Source: archiveOtherDirsToCanonInstructions in installers.ts (lines 752-768). -/
def archiveOtherDirsToCanonInstructions (fileTree : FileTree) : ArchiveInstructions :=
  let allDirs := findAllSubdirsWithSome FILETREE_ROOT matchArchive fileTree
  let allFiles := allDirs.flatMap (fun dir => filesUnder dir globAny fileTree)
  let allToPrefixedMap := allFiles.map (fun f => (f, joinP ARCHIVE_ONLY_CANONICAL_PFX f))
  ⟨.Other, instructionsForSourceToDestPairs allToPrefixedMap⟩

/-- Source: useFirstMatchingLayoutForInstructions in installers.ts (lines 770-778): the
    first layout producing a nonempty instruction list wins; the initial accumulator is
    Invalid with no instructions. -/
def useFirstMatchingLayoutForInstructions
    (possibleLayouts : List (FileTree → ArchiveInstructions)) (fileTree : FileTree) :
    ArchiveInstructions :=
  possibleLayouts.foldl
    (fun found layout => if found.instructions.length > 0 then found else layout fileTree)
    ⟨.Invalid, []⟩

/-- The outcome of installArchiveOnlyMod: rejectedNoInstructions models the plain
    rejection when no layout produced instructions; rejectedStructureError models
    showArchiveStructureErrorDialog followed by rejection. -/
inductive ArchiveInstallResult where
  | instructions (instrs : List VortexInstruction)
  | rejectedNoInstructions
  | rejectedStructureError
  deriving DecidableEq, Repr

/-- The layout chosen by installArchiveOnlyMod: the layouts tried in the fixed source
    order Canon, Heritage, Other through useFirstMatchingLayoutForInstructions. -/
def archiveChosenInstructions (files : List String) : ArchiveInstructions :=
  useFirstMatchingLayoutForInstructions
    [archiveCanonInstructions, archiveOldToNewCanonInstructions,
      archiveOtherDirsToCanonInstructions] (fileTreeFromPaths files)

/-- The file count of the tree as computed by installArchiveOnlyMod. -/
def archiveFileCount (files : List String) : Nat :=
  (filesUnder FILETREE_ROOT globAny (fileTreeFromPaths files)).length

/-- Source: installArchiveOnlyMod in installers.ts (lines 817-867). The non-blocking
    warnUserIfModMightNeedManualReview call does not affect the returned value and is not
    modelled. -/
def installArchiveOnlyMod (files : List String) : ArchiveInstallResult :=
  let fileCount := archiveFileCount files
  let chosenInstructions := archiveChosenInstructions files
  if chosenInstructions.instructions.length < 1 then .rejectedNoInstructions
  else if chosenInstructions.instructions.length != fileCount then .rejectedStructureError
  else .instructions chosenInstructions.instructions

/-! ## Redscript installer (installer.redscript.ts lines 38-212) -/

/-- The outcome of installRedscriptMod: unresolvablePrompt is the modelled-from-spec
    outcome of promptToFallbackOrFailOnUnresolvableLayout (installer.fallback.ts is not
    among the provided sources): the user is prompted to fall back to the Fallback
    installer or abort, and the Redscript layout emits no copy instruction itself. -/
inductive RedscriptInstallResult where
  | instructions (instrs : List VortexInstruction)
  | unresolvablePrompt
  deriving DecidableEq, Repr

/-- Modelled from the spec: extraCanonArchiveInstructions (installer.archive.ts is not
    among the provided sources); per spec section 4.5, archive files under the archive
    canonical prefix are absorbed and copied verbatim alongside a Redscript mod. -/
def extraCanonArchiveInstructions (fileTree : FileTree) : List VortexInstruction :=
  instructionsForSameSourceAndDestPaths
    (filesUnder ARCHIVE_ONLY_CANONICAL_PFX globAny fileTree)

/-- Source: the toplevel detection of installRedscriptMod (dirWithSomeIn at the root),
    identical to the standalone detect functions computed in isolation. -/
def hasToplevelRedscript (t : FileTree) : Bool :=
  dirWithSomeIn FILETREE_ROOT matchRedscript t

/-- Source: detectRedscriptBasedirLayout in installer.redscript.ts (line 43). -/
def hasBasedirRedscript (t : FileTree) : Bool :=
  dirWithSomeIn REDS_MOD_CANONICAL_PATH_PFX matchRedscript t

/-- Source: findCanonicalRedscriptDirs in installer.redscript.ts (line 76). -/
def redscriptCanonSubdirs (t : FileTree) : List String :=
  findDirectSubdirsWithSome REDS_MOD_CANONICAL_PATH_PFX matchRedscript t

/-- Source: the canonical-subdir presence test of installRedscriptMod. -/
def hasCanonRedscript (t : FileTree) : Bool := (redscriptCanonSubdirs t).length > 0

/-- The number of Redscript layouts present, each detected in isolation, in the order the
    source lists them (toplevel, basedir, canon). -/
def redscriptLayoutCount (t : FileTree) : Nat :=
  ([hasToplevelRedscript t, hasBasedirRedscript t, hasCanonRedscript t].filter
    (fun b => b)).length

/-- Source: installRedscriptMod in installer.redscript.ts (lines 146-212). makeModName is
    the provided-source twin of makeSyntheticName. -/
def installRedscriptMod (files : List String) (destinationPath : String) :
    RedscriptInstallResult :=
  let fileTree := fileTreeFromPaths files
  let toplevelReds :=
    if hasToplevelRedscript fileTree then filesUnder FILETREE_ROOT globAny fileTree else []
  let basedirReds :=
    if hasBasedirRedscript fileTree then
      filesUnder REDS_MOD_CANONICAL_PATH_PFX globAny fileTree
    else []
  let canonReds :=
    if hasCanonRedscript fileTree then
      (redscriptCanonSubdirs fileTree).flatMap (fun d => filesUnder d globAny fileTree)
    else []
  if redscriptLayoutCount fileTree != 1 then .unresolvablePrompt
  else
    let modName := makeModName destinationPath
    let redsInstructions :=
      ([canonReds.map toSamePath,
        basedirReds.map (toDirInPath REDS_MOD_CANONICAL_PATH_PFX modName),
        toplevelReds.map (toDirInPath REDS_MOD_CANONICAL_PATH_PFX modName)]).flatMap
        instructionsForSourceToDestPairs
    .instructions (redsInstructions ++ extraCanonArchiveInstructions fileTree)

/-! ## REDmod autoconversion (part_002 lines 132-776) -/

/-- Source: the Feature flag values (features.ts is not among the provided sources;
    modelled from the spec, section 3). -/
inductive Feature where
  | Enabled
  | Disabled
  deriving DecidableEq, Repr

/-- Source: the Features record; only the flag the embedded functions consult. -/
structure Features where
  REDmodAutoconvertArchives : Feature
  deriving DecidableEq, Repr

/-- Source: ModInfo supplied by the host; version models modInfo.version.v, and the
    installingDir field is not needed by the embedded functions. -/
structure ModInfo where
  name : String
  version : String
  deriving DecidableEq, Repr

/-- The layout kinds the autoconversion distinguishes (installers.layouts.ts is not among
    the provided sources; modelled from the spec, section 3): the Archive kinds plus the
    REDmodTransformed Archive kind it produces. -/
inductive InstrKind where
  | archiveCanon
  | archiveHeritage
  | archiveOther
  | archiveXL
  | redmodTransformedArchive
  deriving DecidableEq, Repr

/-- Source: the kinded Instructions value of installers.layouts. -/
structure Instructions where
  kind : InstrKind
  instructions : List VortexInstruction
  deriving DecidableEq, Repr

/-- Source: REDmodInfo (spec section 3); version models version.v, and customSounds is
    not consulted by the embedded functions. -/
structure REDmodInfo where
  name : String
  version : String
  deriving DecidableEq, Repr

/-- Source: the REDmodInfoAndPathDetes record of part_002 (lines 120-125). -/
structure REDmodInfoAndPathDetes where
  redmodInfo : REDmodInfo
  relativeSourceDir : String
  relativeDestDir : String
  fileTree : FileTree
  deriving DecidableEq, Repr

/-- Modelled from the spec: REDMOD_INFO_FILENAME of installers.layouts. -/
def REDMOD_INFO_FILENAME : String := "info.json"

/-- Modelled from the spec: REDMOD_BASEDIR of installers.layouts (REDmod base mods). -/
def REDMOD_BASEDIR : String := "mods"

/-- Modelled from the spec: REDMOD_ARCHIVES_DIRNAME of installers.layouts. -/
def REDMOD_ARCHIVES_DIRNAME : String := "archives"

/-- Modelled from the spec: REDMOD_ARCHIVES_VALID_EXTENSIONS of installers.layouts
    (spec section 4.10: files under archives matching the archive and xl extensions). -/
def REDMOD_ARCHIVES_VALID_EXTENSIONS : List String := [".archive", ".xl"]

/-- Modelled from the spec: ARCHIVE_MOD_CANONICAL_PREFIX of installers.layouts (the
    canonical archive prefix of the section 6 table, with trailing separator as in the
    provided ARCHIVE_ONLY constant). -/
def ARCHIVE_MOD_CANONICAL_PFX : String := "archive\\pc\\mod\\"

/-- Source: matchREDmodArchive in part_002 (lines 169-170). -/
def matchREDmodArchive (p : String) : Bool :=
  REDMOD_ARCHIVES_VALID_EXTENSIONS.contains (extnameStr p)

/-- Modelled from the spec: moveFromTo of installers.shared (not among the provided
    sources), the path remapping helper: the file paired with its path with the source
    prefix replaced by the destination prefix. -/
def moveFromTo (sourceDirPfx destinationDirPfx : String) (f : String) : String × String :=
  (f, replaceFirstStr f sourceDirPfx destinationDirPfx)

/-- Source: instructionsToMoveAllFromSourceToDestination in part_002 (lines 150-159). -/
def instructionsToMoveAllFromSourceToDestination
    (sourceDirPfx destinationDirPfx : String) (files : List String) :
    List VortexInstruction :=
  instructionsForSourceToDestPairs (files.map (moveFromTo sourceDirPfx destinationDirPfx))

/-- Source: archiveLayoutAndValidation in part_002 (lines 307-350). The nested-subdir and
    multiple-archive conditions only produce a non-fatal warning dialog and do not change
    the returned instructions; the function never returns an error. -/
def archiveLayoutAndValidation (detes : REDmodInfoAndPathDetes) :
    Except Unit (List VortexInstruction) :=
  let archiveDir := joinP detes.relativeSourceDir REDMOD_ARCHIVES_DIRNAME
  let allArchiveFilesInArchivePath := filesUnder archiveDir matchREDmodArchive detes.fileTree
  .ok (instructionsToMoveAllFromSourceToDestination
    detes.relativeSourceDir detes.relativeDestDir allArchiveFilesInArchivePath)

/-- Modelled from the spec: modInfoTaggedAsAutoconverted of installers.shared (not among
    the provided sources); spec section 4.11 step 1 suffixes the name with an autoconvert
    marker, and scenario 7 shows the name X becoming X_autoconverted. -/
def modInfoTaggedAsAutoconverted (modInfo : ModInfo) : ModInfo :=
  { modInfo with name := modInfo.name ++ "_autoconverted" }

/-- Modelled from the spec: jsonpp pretty-printing of the synthesized info.json content
    with the tagged name and the version from the mod info (spec section 4.11 step 2). -/
def jsonppInfo (info : REDmodInfo) : String :=
  "\x7b \"name\": \"" ++ info.name ++ "\", \"version\": \"" ++ info.version ++ "\" \x7d"

/-- JS Map get: the value of the last inserted pair with the given key. -/
def jsMapGet (pairs : List (String × String)) (k : String) : Option String :=
  match pairs with
  | [] => none
  | p :: rest =>
    match jsMapGet rest k with
    | some v => some v
    | none => if p.1 == k then some p.2 else none

/-- JS Map key iteration: insertion order, first occurrence kept. -/
def jsMapKeys (pairs : List (String × String)) : List String :=
  dedupFirst (pairs.map Prod.fst)

/-- Source: the InfoNotification identifiers of ui.notifications consulted by the
    autoconversion (emitted via showInfoNotification). -/
inductive InfoNotification where
  | REDmodArchiveAutoconverted
  | REDmodArchiveNOTautoconverted
  deriving DecidableEq, Repr

/-- The value of transformToREDmodArchiveInstructions: the Either result of the source,
    with failed modelling the Left error path (unreachable because
    archiveLayoutAndValidation never errors). -/
inductive TransformOutcome where
  | ok (instrs : Instructions)
  | failed
  deriving DecidableEq, Repr

/-- The result of transformToREDmodArchiveInstructions together with the info
    notifications it emits (logging is dropped). -/
structure TransformResult where
  result : TransformOutcome
  notifications : List InfoNotification
  deriving DecidableEq, Repr

/-- The per-instruction step building realSourceAndVirtualSourcePairs in
    transformToREDmodArchiveInstructions: keep only copy instructions, pairing the
    destination with the canonical archive prefix replaced by the REDmod archive
    directory (the virtual source) with the real source. -/
def virtualPairOf (destArchDir : String) : VortexInstruction → Option (String × String)
  | .copy s d =>
    some (replaceFirstStr d ARCHIVE_MOD_CANONICAL_PFX destArchDir, s)
  | _ => none

/-- The per-instruction step mapping the sub-validator output back to real sources in
    transformToREDmodArchiveInstructions: a copy whose source is a known virtual source
    gets the corresponding real source. -/
def mapBackToRealSource (pairsV : List (String × String)) :
    VortexInstruction → VortexInstruction
  | .copy s d =>
    match jsMapGet pairsV s with
    | some real => VortexInstruction.copy real d
    | none => VortexInstruction.copy s d
  | other => other

/-- Source: transformToREDmodArchiveInstructions in part_002 (lines 650-776). -/
def transformToREDmodArchiveInstructions (features : Features) (modInfo : ModInfo)
    (originalInstructions : Instructions) : TransformResult :=
  if features.REDmodAutoconvertArchives != Feature.Enabled then
    ⟨.ok originalInstructions, []⟩
  else if originalInstructions.kind == InstrKind.archiveXL then
    ⟨.ok originalInstructions, [.REDmodArchiveNOTautoconverted]⟩
  else
    let redmodInfoWithAutoconvertTag := modInfoTaggedAsAutoconverted modInfo
    let redmodModuleName := redmodInfoWithAutoconvertTag.name
    let redmodVersion := redmodInfoWithAutoconvertTag.version
    let destinationDirWithModnamePfx := joinP (joinP REDMOD_BASEDIR redmodModuleName) sepStr
    let destinationArchiveDirWithModnamePfx :=
      joinP (joinP destinationDirWithModnamePfx REDMOD_ARCHIVES_DIRNAME) sepStr
    let infoJson : REDmodInfo := ⟨redmodModuleName, redmodVersion⟩
    let generateInfoJsonInstruction : VortexInstruction :=
      .generatefile (jsonppInfo infoJson)
        (joinP destinationDirWithModnamePfx REDMOD_INFO_FILENAME)
    let realSourceAndVirtualSourcePairs : List (String × String) :=
      originalInstructions.instructions.filterMap
        (virtualPairOf destinationArchiveDirWithModnamePfx)
    let fileTreeForVirtualREDmodSources :=
      fileTreeFromPaths (jsMapKeys realSourceAndVirtualSourcePairs)
    let redmodInstallDetes : REDmodInfoAndPathDetes :=
      ⟨infoJson, destinationDirWithModnamePfx, destinationDirWithModnamePfx,
        fileTreeForVirtualREDmodSources⟩
    match archiveLayoutAndValidation redmodInstallDetes with
    | .error _ => ⟨.failed, []⟩
    | .ok archInstructions =>
      let mappedBack :=
        archInstructions.map (mapBackToRealSource realSourceAndVirtualSourcePairs)
      ⟨.ok ⟨InstrKind.redmodTransformedArchive,
          mappedBack ++ [generateInfoJsonInstruction]⟩,
        [.REDmodArchiveAutoconverted]⟩

/-! ## Helper lemmas about the path primitives -/

theorem strData_append (a b : String) : (a ++ b).data = a.data ++ b.data := by
  cases a; cases b; rfl

theorem str_ne_empty_iff (s : String) : s ≠ "" ↔ s.data ≠ [] := by
  constructor
  · intro h hd
    exact h (String.ext hd)
  · intro h he
    exact h (by rw [he])

theorem lpre_append (l r : List Char) : lpre l (l ++ r) = true := by
  induction l with
  | nil => rfl
  | cons c cs ih => simpa [lpre] using ih

theorem lpre_take_drop {pat l : List Char} (h : lpre pat l = true) :
    pat ++ l.drop pat.length = l := by
  induction pat generalizing l with
  | nil => simp
  | cons p ps ih =>
    cases l with
    | nil => simp [lpre] at h
    | cons c cs =>
      simp only [lpre, Bool.and_eq_true, beq_iff_eq] at h
      simp [h.1, ih h.2]

theorem takeWhile_append_stop (p : Char → Bool) (xs : List Char) {c : Char}
    (ys : List Char) (hc : p c = false) :
    (xs ++ c :: ys).takeWhile p = xs.takeWhile p := by
  induction xs with
  | nil => simp [List.takeWhile_cons, hc]
  | cons x xs ih => by_cases hx : p x <;> simp [List.takeWhile_cons, hx, ih]

theorem basenameChars_append_sep (a b : List Char) :
    basenameChars (a ++ sepChar :: b) = basenameChars b := by
  unfold basenameChars
  rw [List.reverse_append, List.reverse_cons]
  rw [List.append_assoc, List.singleton_append]
  rw [takeWhile_append_stop _ _ _ (by simp)]

theorem extnameChars_append_sep (a b : List Char) :
    extnameChars (a ++ sepChar :: b) = extnameChars b := by
  unfold extnameChars
  rw [basenameChars_append_sep]

theorem sep_not_mem_basenameChars (l : List Char) : sepChar ∉ basenameChars l := by
  intro hmem
  unfold basenameChars at hmem
  rw [List.mem_reverse] at hmem
  have := List.mem_takeWhile_imp hmem
  simp at this

theorem basenameChars_ne_nil {l : List Char} (h0 : l ≠ [])
    (h1 : l.reverse.head? ≠ some sepChar) : basenameChars l ≠ [] := by
  unfold basenameChars
  cases hr : l.reverse with
  | nil => exact absurd (by simpa using congrArg List.reverse hr) h0
  | cons c t =>
    rw [hr] at h1
    have hc : (c != sepChar) = true := by
      simp only [List.head?] at h1
      simp [bne]
      intro he
      exact h1 (by rw [he])
    simp [List.takeWhile_cons, hc]

theorem endsWithSepB_append {b : String} (a : String) (hb : b.data ≠ []) :
    endsWithSepB (a ++ b) = endsWithSepB b := by
  unfold endsWithSepB
  rw [strData_append, List.reverse_append]
  cases hbr : b.data.reverse with
  | nil => exact absurd (by simpa using congrArg List.reverse hbr) hb
  | cons c t => simp

theorem startsWithSepB_append {a : String} (b : String) (ha : a.data ≠ []) :
    startsWithSepB (a ++ b) = startsWithSepB a := by
  unfold startsWithSepB
  rw [strData_append]
  cases har : a.data with
  | nil => exact absurd har ha
  | cons c t => simp

theorem joinP_eq_sep_join {a b : String} (ha : a ≠ "") (hb : b ≠ "")
    (hea : endsWithSepB a = false) (hsb : startsWithSepB b = false) :
    joinP a b = a ++ sepStr ++ b := by
  simp [joinP, ha, hb, hea, hsb]

theorem joinP_sep_right {a : String} (ha : a ≠ "") (hea : endsWithSepB a = false) :
    joinP a sepStr = a ++ sepStr := by
  have h1 : sepStr ≠ "" := by decide
  have h2 : startsWithSepB sepStr = true := by decide
  simp [joinP, ha, h1, hea, h2]

theorem joinP_endsSep {a b : String} (ha : a ≠ "") (hb : b ≠ "")
    (hea : endsWithSepB a = true) (hsb : startsWithSepB b = false) :
    joinP a b = a ++ b := by
  simp [joinP, ha, hb, hea, hsb]

theorem replaceFirstChars_of_pre (pat rep rest : List Char) (hp : pat ≠ []) :
    replaceFirstChars pat rep (pat ++ rest) = rep ++ rest := by
  cases pat with
  | nil => exact absurd rfl hp
  | cons p ps =>
    have h1 : lpre (p :: ps) ((p :: ps) ++ rest) = true := lpre_append _ _
    rw [List.cons_append]
    unfold replaceFirstChars
    rw [← List.cons_append, if_pos h1, List.drop_left]

theorem replaceFirstChars_self (pat l : List Char) :
    replaceFirstChars pat pat l = l := by
  induction l with
  | nil => rfl
  | cons c cs ih =>
    unfold replaceFirstChars
    by_cases h : lpre pat (c :: cs) = true
    · rw [if_pos h, lpre_take_drop h]
    · rw [if_neg h, ih]

theorem jsMapGet_not_mem {pairs : List (String × String)} {k : String}
    (h : k ∉ pairs.map Prod.fst) : jsMapGet pairs k = none := by
  induction pairs with
  | nil => rfl
  | cons p rest ih =>
    simp only [List.map_cons, List.mem_cons, not_or] at h
    unfold jsMapGet
    rw [ih h.2]
    have hb : (p.1 == k) = false := by
      rw [beq_eq_false_iff_ne]
      exact fun he => h.1 he.symm
    simp [hb]

theorem jsMapGet_of_nodup {pairs : List (String × String)} {k v : String}
    (hn : (pairs.map Prod.fst).Nodup) (hm : (k, v) ∈ pairs) :
    jsMapGet pairs k = some v := by
  induction pairs with
  | nil => simp at hm
  | cons p rest ih =>
    simp only [List.map_cons, List.nodup_cons] at hn
    rcases List.mem_cons.mp hm with he | hr
    · have hnm : k ∉ rest.map Prod.fst := by
        rw [← he] at hn
        exact hn.1
      unfold jsMapGet
      rw [jsMapGet_not_mem hnm, ← he]
      simp
    · unfold jsMapGet
      rw [ih hn.2 hr]

theorem dedupFirstAux_of_nodup {l : List String} (seen : List String)
    (hn : l.Nodup) (hd : ∀ x ∈ l, x ∉ seen) : dedupFirstAux seen l = l := by
  induction l generalizing seen with
  | nil => rfl
  | cons x xs ih =>
    rw [List.nodup_cons] at hn
    have hx : x ∉ seen := hd x (by simp)
    unfold dedupFirstAux
    rw [if_neg (by simpa using hx)]
    congr 1
    exact ih (x :: seen) hn.2 (fun y hy => by
      simp only [List.mem_cons, not_or]
      exact ⟨fun he => hn.1 (he ▸ hy), hd y (by simp [hy])⟩)

theorem dedupFirst_of_nodup {l : List String} (hn : l.Nodup) : dedupFirst l = l :=
  dedupFirstAux_of_nodup [] hn (by simp)

/-! ## Claim theorems -/

/-- C1 counterexample: installJsonMod, invoked on two known JSON files with the same
    basename, returns two copy instructions with the same destination, so the claim that
    every installer deduplicates instructions by destination before returning is false on
    this concrete input. -/
theorem c1_counterexample_duplicate_destinations :
    ¬ ((installJsonMod ["giweights.json", "sub\\giweights.json"]).map
        VortexInstruction.destOf).Nodup := by decide

/-- C1 (amended): instructionsForSourceToDestPairs performs no deduplication by
    destination: for every pair list and every destination d, the number of emitted copy
    instructions with destination d equals the number of non-directory-marker input pairs
    with destination d, so duplicate destinations among the pairs survive into every
    returned instruction set. -/
theorem c1_amended_no_dedup (pairs : List (String × String)) (d : String) :
    ((instructionsForSourceToDestPairs pairs).map VortexInstruction.destOf).count d =
      ((pairs.filter (fun p => !endsWithSepB p.1)).map Prod.snd).count d := by
  unfold instructionsForSourceToDestPairs
  rw [List.map_map]
  rfl

/-- C5 counterexample: on the spec scenario 4 input with the correct game id,
    testForJsonMod does not report supported; the validation rejection happens at test
    time, contrary to the claim that testSupported returns supported and install then
    rejects. -/
theorem c5_counterexample_test_rejects :
    testForJsonMod ["random\\options.json"] GAME_ID ≠
      Except.ok ⟨true, ([] : List String)⟩ := by
  have h : testForJsonMod ["random\\options.json"] GAME_ID =
      Except.error JsonTestError.improperlyLocatedOptionsJson := rfl
  rw [h]
  intro hcontra
  exact Except.noConfusion hcontra

/-- C5 (amended): for the input random backslash options.json with the cyberpunk2077
    game id, testForJsonMod itself rejects with the validation error whose message
    mentions options.json (an options.json not residing under r6 config settings), and
    installJsonMod, were it invoked on the same input, resolves with a verbatim copy
    instruction rather than rejecting. -/
theorem c5_amended_reject_in_test :
    testForJsonMod ["random\\options.json"] GAME_ID =
        Except.error JsonTestError.improperlyLocatedOptionsJson ∧
      installJsonMod ["random\\options.json"] =
        [VortexInstruction.copy "random\\options.json" "random\\options.json"] :=
  ⟨rfl, by decide⟩

/-- C8 counterexample: the Fallback detector is not supported for every game id; for a
    game id other than cyberpunk2077 it reports not supported. -/
theorem c8_counterexample_gameid :
    (testAnyOtherModFallback ["a.archive"] "skyrim").supported = false := by decide

/-- C8 (amended): for every file list, testAnyOtherModFallback reports supported exactly
    when the game id is cyberpunk2077, and installAnyModWithBasicFixes never fails: it
    always resolves with one verbatim copy instruction (destination equal to source) per
    input file that is not a directory marker, while surfacing the fallback-reached
    dialog. -/
theorem c8_amended_fallback (files : List String) (gameId : String) :
    testAnyOtherModFallback files gameId = ⟨gameId == GAME_ID, []⟩ ∧
      installAnyModWithBasicFixes files =
        ((files.filter (fun f => !endsWithSepB f)).map
          (fun f => VortexInstruction.copy f f), true) := by
  constructor
  · cases h : gameId == GAME_ID <;> simp [testAnyOtherModFallback, bne, h]
  · unfold installAnyModWithBasicFixes instructionsForSameSourceAndDestPaths
      instructionsForSourceToDestPairs
    rw [List.filter_map, List.map_map]
    rfl

/-- C10: whenever the mixed Red plus CET detector reports supported, the plain CET
    detector reports supported on the same file list (the mixed condition is the CET
    condition strengthened by the presence of at least one .reds file). -/
theorem c10_mixed_implies_cet (files : List String)
    (h : testForRedCetMixedMod files = true) : testForCetMod files = true := by
  unfold testForRedCetMixedMod at h
  unfold testForCetMod
  cases hc : cetModdirHasChildren files <;>
    cases hm : hasCetFilesInANamedModDir files <;>
      cases hr : (allRedscriptFiles files).isEmpty <;> simp_all

/-- C10 witness: a concrete mixed Red plus CET mod on which both detectors report
    supported. -/
theorem c10_witness :
    testForRedCetMixedMod
        ["bin\\x64\\plugins\\cyber_engine_tweaks\\mods\\M\\init.lua",
          "r6\\scripts\\a.reds"] = true ∧
      testForCetMod
        ["bin\\x64\\plugins\\cyber_engine_tweaks\\mods\\M\\init.lua",
          "r6\\scripts\\a.reds"] = true :=
  ⟨by decide, c10_mixed_implies_cet _ (by decide)⟩

/-- C7: with the autoconvert feature enabled, transformToREDmodArchiveInstructions
    returns XL-kind instructions unchanged (no generatefile added, no destination
    rewritten) and emits only the not-autoconverted info notification. -/
theorem c7_xl_unchanged (features : Features) (modInfo : ModInfo) (orig : Instructions)
    (hf : features.REDmodAutoconvertArchives = Feature.Enabled)
    (hk : orig.kind = InstrKind.archiveXL) :
    transformToREDmodArchiveInstructions features modInfo orig =
      ⟨.ok orig, [InfoNotification.REDmodArchiveNOTautoconverted]⟩ := by
  simp [transformToREDmodArchiveInstructions, hf, hk]

/-- C7 witness: a concrete XL instruction set returned unchanged. -/
theorem c7_witness :
    transformToREDmodArchiveInstructions ⟨Feature.Enabled⟩ ⟨"X", "1.0"⟩
        ⟨InstrKind.archiveXL, [VortexInstruction.copy "a" "b"]⟩ =
      ⟨.ok ⟨InstrKind.archiveXL, [VortexInstruction.copy "a" "b"]⟩,
        [InfoNotification.REDmodArchiveNOTautoconverted]⟩ :=
  c7_xl_unchanged _ _ _ rfl rfl

/-- C3: the three Redscript layouts (toplevel, basedir, canon) are detected in isolation
    and counted; installRedscriptMod returns layout instructions exactly when the count
    is one, and otherwise returns the prompt-to-fall-back-or-abort outcome, emitting no
    copy instruction itself. -/
theorem c3_exactly_one_layout (files : List String) (destinationPath : String) :
    (redscriptLayoutCount (fileTreeFromPaths files) ≠ 1 →
        installRedscriptMod files destinationPath =
          RedscriptInstallResult.unresolvablePrompt) ∧
      (redscriptLayoutCount (fileTreeFromPaths files) = 1 →
        ∃ instrs, installRedscriptMod files destinationPath =
          RedscriptInstallResult.instructions instrs) := by
  constructor
  · intro h
    unfold installRedscriptMod
    simp [h]
  · intro h
    unfold installRedscriptMod
    simp [h]

/-- C3 witness: two layouts present (toplevel and basedir) prompt the user; a single
    basedir layout produces instructions. -/
theorem c3_witness :
    installRedscriptMod ["a.reds", "r6\\scripts\\b.reds"] "M.installing" =
        RedscriptInstallResult.unresolvablePrompt ∧
      ∃ instrs, installRedscriptMod ["r6\\scripts\\b.reds"] "M.installing" =
        RedscriptInstallResult.instructions instrs :=
  ⟨(c3_exactly_one_layout _ _).1 (by decide), (c3_exactly_one_layout _ _).2 (by decide)⟩

/-- C4 counterexample: on this input the Other layout double-counts the nested directory,
    so the chosen instructions number three while the archive contains two files: the
    instructions cover every file (not fewer), yet installArchiveOnlyMod rejects with the
    structure-error dialog, contradicting the claim that otherwise the chosen
    instructions are returned. -/
theorem c4_counterexample_overcount_rejects :
    (archiveChosenInstructions ["a\\x.archive", "a\\b\\y.archive"]).instructions.length = 3 ∧
      archiveFileCount ["a\\x.archive", "a\\b\\y.archive"] = 2 ∧
      installArchiveOnlyMod ["a\\x.archive", "a\\b\\y.archive"] =
        ArchiveInstallResult.rejectedStructureError := by
  refine ⟨by decide, by decide, by decide⟩

/-- C4 (amended): installArchiveOnlyMod selects the first of Canon, Heritage, Other that
    produces at least one instruction; with no instructions at all it rejects plainly;
    when the chosen instruction count differs from the file count of the archive in
    either direction it rejects with the structure-error dialog; only on an exact count
    match are the chosen instructions returned. -/
theorem c4_amended_selection_and_exact_cover (files : List String) :
    (archiveChosenInstructions files =
        (if (archiveCanonInstructions (fileTreeFromPaths files)).instructions ≠ [] then
          archiveCanonInstructions (fileTreeFromPaths files)
        else if (archiveOldToNewCanonInstructions (fileTreeFromPaths files)).instructions
            ≠ [] then
          archiveOldToNewCanonInstructions (fileTreeFromPaths files)
        else archiveOtherDirsToCanonInstructions (fileTreeFromPaths files))) ∧
      ((archiveChosenInstructions files).instructions = [] →
        installArchiveOnlyMod files = ArchiveInstallResult.rejectedNoInstructions) ∧
      ((archiveChosenInstructions files).instructions ≠ [] →
        (archiveChosenInstructions files).instructions.length ≠ archiveFileCount files →
        installArchiveOnlyMod files = ArchiveInstallResult.rejectedStructureError) ∧
      ((archiveChosenInstructions files).instructions ≠ [] →
        (archiveChosenInstructions files).instructions.length = archiveFileCount files →
        installArchiveOnlyMod files =
          ArchiveInstallResult.instructions (archiveChosenInstructions files).instructions) := by
  refine ⟨?_, ?_, ?_, ?_⟩
  · unfold archiveChosenInstructions useFirstMatchingLayoutForInstructions
    simp only [List.foldl_cons, List.foldl_nil]
    norm_num
    by_cases h1 : (archiveCanonInstructions (fileTreeFromPaths files)).instructions = []
    · by_cases h2 :
        (archiveOldToNewCanonInstructions (fileTreeFromPaths files)).instructions = []
      · simp [h1, h2]
      · simp [h1, h2, List.length_pos.mpr h2]
    · simp [h1, List.length_pos.mpr h1]
  · intro h
    unfold installArchiveOnlyMod
    simp [h]
  · intro h1 h2
    unfold installArchiveOnlyMod
    have hl : ¬ (archiveChosenInstructions files).instructions.length < 1 := by
      simpa [Nat.lt_one_iff, List.length_eq_zero] using h1
    simp [hl, h2]
  · intro h1 h2
    unfold installArchiveOnlyMod
    have hl : ¬ (archiveChosenInstructions files).instructions.length < 1 := by
      simpa [Nat.lt_one_iff, List.length_eq_zero] using h1
    simp [hl, h2]
    omega

/-- C4 witness: no instructions reject plainly; a one-instruction Canon layout over a
    two-file archive (fewer than the archive contains) rejects with the structure error;
    an exact cover returns the chosen instructions. -/
theorem c4_witness :
    installArchiveOnlyMod ["readme.txt"] = ArchiveInstallResult.rejectedNoInstructions ∧
      installArchiveOnlyMod ["archive\\pc\\mod\\a.archive", "readme.txt"] =
        ArchiveInstallResult.rejectedStructureError ∧
      installArchiveOnlyMod ["archive\\pc\\mod\\a.archive"] =
        ArchiveInstallResult.instructions
          [VortexInstruction.copy "archive\\pc\\mod\\a.archive"
            "archive\\pc\\mod\\a.archive"] :=
  ⟨(c4_amended_selection_and_exact_cover _).2.1 (by decide),
    (c4_amended_selection_and_exact_cover _).2.2.1 (by decide) (by decide),
    ((c4_amended_selection_and_exact_cover _).2.2.2 (by decide) (by decide)).trans
      (by decide)⟩

theorem testForReshadeFile_eq_not_matches (content : String) :
    testForReshadeFile content = !reshadeHeadRegexMatches content := by
  obtain ⟨l⟩ := content
  cases l with
  | nil => decide
  | cons c1 rest =>
    cases rest with
    | nil => simp [testForReshadeFile, replaceReshadeHeadRegex, reshadeHeadRegexMatches]
    | cons c2 cs =>
      have hrep : replaceReshadeHeadRegex ⟨c1 :: c2 :: cs⟩ =
          if ((c1 == '[' || c1 == '#') && jsDot c2) = true then
            (⟨(c2 :: cs).dropWhile jsDot⟩ : String)
          else ⟨c1 :: c2 :: cs⟩ := rfl
      have hmat : reshadeHeadRegexMatches ⟨c1 :: c2 :: cs⟩ =
          ((c1 == '[' || c1 == '#') && jsDot c2) := rfl
      unfold testForReshadeFile
      rw [hrep, hmat]
      by_cases hm : ((c1 == '[' || c1 == '#') && jsDot c2) = true
      · rw [if_pos hm]
        simp only [hm, Bool.not_true]
        rw [beq_eq_false_iff_ne]
        intro he
        have hlen := congrArg (fun s : String => s.data.length) he
        simp only [List.length_cons] at hlen
        have hle : ((c2 :: cs).dropWhile jsDot).length ≤ (c2 :: cs).length :=
          (List.dropWhile_sublist _).length_le
        simp only [List.length_cons] at hle
        omega
      · rw [if_neg hm]
        simp [hm]

/-- C2 counterexample: with content whose head matches the regex (here a section
    header), the mod is NOT treated as Reshade: the .ini destination is the normal
    engine config path, not the bin x64 path the claim requires. -/
theorem c2_counterexample_match_is_not_reshade :
    reshadeHeadRegexMatches "[Section]" = true ∧
      installIniMod ["my.ini"] "[Section]" =
        [VortexInstruction.copy "my.ini" "engine\\config\\platform\\pc\\my.ini"] :=
  ⟨by decide, by decide⟩

/-- C2 (amended): installIniMod reads the first .ini file, and the regex branch is the
    reverse of the claim: when the head of the content matches the regex, every .ini
    file is installed as a normal INI mod to the engine config platform pc path (and no
    shader instruction is emitted); when the head does not match, the mod is treated as
    Reshade: every .ini file goes to bin x64 and files under a reshade-shaders
    directory are additionally copied under bin x64 reshade-shaders. -/
theorem c2_amended_inverted_reshade (files : List String) (iniContent : String) :
    (reshadeHeadRegexMatches iniContent = true →
        installIniMod files iniContent =
          (files.filter (fun f => extnameStr f == INI_MOD_EXT)).map
            (fun f => VortexInstruction.copy f (joinP INI_MOD_PATH (basenameStr f)))) ∧
      (reshadeHeadRegexMatches iniContent = false →
        installIniMod files iniContent =
          (files.filter (fun f => extnameStr f == INI_MOD_EXT)).map
              (fun f => VortexInstruction.copy f (joinP RESHADE_MOD_PATH (basenameStr f))) ++
            (if (files.filter
                  (fun f => containsSub SHADERS_DIR.data f.data && !endsWithSepB f)) = [] then
              []
            else
              (files.filter
                  (fun f => containsSub SHADERS_DIR.data f.data && !endsWithSepB f)).map
                (fun f =>
                  VortexInstruction.copy f (joinP RESHADE_MOD_PATH (shaderRename f))))) := by
  constructor
  · intro hm
    unfold installIniMod
    rw [testForReshadeFile_eq_not_matches, hm]
    simp
  · intro hm
    unfold installIniMod
    rw [testForReshadeFile_eq_not_matches, hm]
    by_cases hs :
        (files.filter (fun f => containsSub SHADERS_DIR.data f.data && !endsWithSepB f)) = []
    · simp [hs]
    · simp [hs, List.isEmpty_iff]

/-- C2 witness: a matching head installs the .ini to the engine config path; a
    non-matching head installs it to bin x64 with the shader file relocated under
    bin x64 reshade-shaders. -/
theorem c2_witness :
    installIniMod ["a.ini"] "[S]x" =
        [VortexInstruction.copy "a.ini" "engine\\config\\platform\\pc\\a.ini"] ∧
      installIniMod ["a.ini", "x\\reshade-shaders\\s.fx"] "key=1" =
        [VortexInstruction.copy "a.ini" "bin\\x64\\a.ini",
          VortexInstruction.copy "x\\reshade-shaders\\s.fx"
            "bin\\x64\\reshade-shaders\\s.fx"] :=
  ⟨((c2_amended_inverted_reshade _ _).1 (by decide)).trans (by decide),
    ((c2_amended_inverted_reshade _ _).2 (by decide)).trans (by decide)⟩

theorem endsWithSepB_eq_false_of_not_mem {s : String} (h : sepChar ∉ s.data) :
    endsWithSepB s = false := by
  unfold endsWithSepB
  cases hr : s.data.reverse with
  | nil => rfl
  | cons c t =>
    have hc : c ∈ s.data := by
      rw [← List.mem_reverse, hr]
      simp
    have hne : c ≠ sepChar := fun he => h (he ▸ hc)
    simp [hne]

theorem startsWithSepB_eq_false_of_not_mem {s : String} (h : sepChar ∉ s.data) :
    startsWithSepB s = false := by
  unfold startsWithSepB
  cases hd : s.data with
  | nil => rfl
  | cons c t =>
    have hc : c ∈ s.data := by rw [hd]; simp
    have hne : c ≠ sepChar := fun he => h (he ▸ hc)
    simp [hne]

theorem filesUnder_subset {dir : String} {filt : String → Bool} {t : FileTree}
    {f : String} (h : f ∈ filesUnder dir filt t) : f ∈ t := by
  unfold filesUnder at h
  exact List.mem_of_mem_filter h

theorem toDirInPath_dest_under (modName f : String)
    (h1 : modName ≠ "") (h2 : sepChar ∉ modName.data)
    (hf0 : f ≠ "") (hfe : endsWithSepB f = false) :
    lpre (REDS_MOD_CANONICAL_PATH_PFX ++ sepStr ++ modName ++ sepStr).data
      (joinP (joinP REDS_MOD_CANONICAL_PATH_PFX modName) (basenameStr f)).data = true := by
  have hP1 : (REDS_MOD_CANONICAL_PATH_PFX : String) ≠ "" := by decide
  have hP2 : endsWithSepB REDS_MOD_CANONICAL_PATH_PFX = false := by decide
  have hsM : startsWithSepB modName = false := startsWithSepB_eq_false_of_not_mem h2
  have hinner : joinP REDS_MOD_CANONICAL_PATH_PFX modName =
      REDS_MOD_CANONICAL_PATH_PFX ++ sepStr ++ modName :=
    joinP_eq_sep_join hP1 h1 hP2 hsM
  have hfrev : f.data.reverse.head? ≠ some sepChar := by
    unfold endsWithSepB at hfe
    exact beq_eq_false_iff_ne.mp hfe
  have hbn0 : basenameChars f.data ≠ [] :=
    basenameChars_ne_nil ((str_ne_empty_iff f).mp hf0) hfrev
  have hbnStr : basenameStr f ≠ "" := by
    rw [str_ne_empty_iff]
    simpa [basenameStr] using hbn0
  have hbns : startsWithSepB (basenameStr f) = false :=
    startsWithSepB_eq_false_of_not_mem
      (by simpa [basenameStr] using sep_not_mem_basenameChars f.data)
  have hmdata : modName.data ≠ [] := (str_ne_empty_iff modName).mp h1
  have hie : endsWithSepB (joinP REDS_MOD_CANONICAL_PATH_PFX modName) = false := by
    rw [hinner, endsWithSepB_append _ hmdata]
    exact endsWithSepB_eq_false_of_not_mem h2
  have hin0 : joinP REDS_MOD_CANONICAL_PATH_PFX modName ≠ "" := by
    rw [hinner]
    intro he
    have hd := congrArg String.data he
    simp [strData_append] at hd
    exact hmdata hd.2.2
  have houter : joinP (joinP REDS_MOD_CANONICAL_PATH_PFX modName) (basenameStr f) =
      joinP REDS_MOD_CANONICAL_PATH_PFX modName ++ sepStr ++ basenameStr f :=
    joinP_eq_sep_join hin0 hbnStr hie hbns
  rw [houter, hinner, strData_append]
  exact lpre_append _ _

theorem installRedscriptMod_eq_basedir (files : List String) (destinationPath : String)
    (hT : hasToplevelRedscript (fileTreeFromPaths files) = false)
    (hB : hasBasedirRedscript (fileTreeFromPaths files) = true)
    (hC : hasCanonRedscript (fileTreeFromPaths files) = false) :
    installRedscriptMod files destinationPath =
      RedscriptInstallResult.instructions
        (instructionsForSourceToDestPairs
            ((filesUnder REDS_MOD_CANONICAL_PATH_PFX globAny (fileTreeFromPaths files)).map
              (toDirInPath REDS_MOD_CANONICAL_PATH_PFX (makeModName destinationPath))) ++
          extraCanonArchiveInstructions (fileTreeFromPaths files)) := by
  have hcnt : redscriptLayoutCount (fileTreeFromPaths files) = 1 := by
    simp [redscriptLayoutCount, hT, hB, hC]
  unfold installRedscriptMod
  simp [hT, hB, hC, hcnt, instructionsForSourceToDestPairs]

theorem installRedscriptMod_eq_toplevel (files : List String) (destinationPath : String)
    (hT : hasToplevelRedscript (fileTreeFromPaths files) = true)
    (hB : hasBasedirRedscript (fileTreeFromPaths files) = false)
    (hC : hasCanonRedscript (fileTreeFromPaths files) = false) :
    installRedscriptMod files destinationPath =
      RedscriptInstallResult.instructions
        (instructionsForSourceToDestPairs
            ((filesUnder FILETREE_ROOT globAny (fileTreeFromPaths files)).map
              (toDirInPath REDS_MOD_CANONICAL_PATH_PFX (makeModName destinationPath))) ++
          extraCanonArchiveInstructions (fileTreeFromPaths files)) := by
  have hcnt : redscriptLayoutCount (fileTreeFromPaths files) = 1 := by
    simp [redscriptLayoutCount, hT, hB, hC]
  unfold installRedscriptMod
  simp [hT, hB, hC, hcnt, instructionsForSourceToDestPairs]

/-- C9: when installRedscriptMod resolves the Basedir or Toplevel layout (the single
    layout present), every relocated file (a copy whose destination differs from its
    source) lands under r6 scripts modName, where modName is makeModName of the
    destination path: the basename with a trailing .installing suffix stripped. The
    wellformedness hypotheses say the input paths are nonempty and the synthesized name
    is nonempty without separators, as for any real staging directory. -/
theorem c9_relocation_under_synthesized_moddir (files : List String)
    (destinationPath : String) (instrs : List VortexInstruction)
    (hwf : ∀ f ∈ files, f ≠ "")
    (hname1 : makeModName destinationPath ≠ "")
    (hname2 : sepChar ∉ (makeModName destinationPath).data)
    (hbt : hasBasedirRedscript (fileTreeFromPaths files) = true ∨
      hasToplevelRedscript (fileTreeFromPaths files) = true)
    (hcount : redscriptLayoutCount (fileTreeFromPaths files) = 1)
    (hres : installRedscriptMod files destinationPath =
      RedscriptInstallResult.instructions instrs) :
    ∀ i ∈ instrs, i.sourceOf ≠ some i.destOf →
      lpre (REDS_MOD_CANONICAL_PATH_PFX ++ sepStr ++ makeModName destinationPath
          ++ sepStr).data i.destOf.data = true := by
  intro i hi hne
  have htriple :
      (hasToplevelRedscript (fileTreeFromPaths files) = false ∧
        hasBasedirRedscript (fileTreeFromPaths files) = true ∧
        hasCanonRedscript (fileTreeFromPaths files) = false) ∨
      (hasToplevelRedscript (fileTreeFromPaths files) = true ∧
        hasBasedirRedscript (fileTreeFromPaths files) = false ∧
        hasCanonRedscript (fileTreeFromPaths files) = false) := by
    cases hT : hasToplevelRedscript (fileTreeFromPaths files) <;>
      cases hB : hasBasedirRedscript (fileTreeFromPaths files) <;>
        cases hC : hasCanonRedscript (fileTreeFromPaths files) <;>
          simp_all [redscriptLayoutCount]
  have hmain : ∀ (relocated : List String), i ∈ instructionsForSourceToDestPairs
        (relocated.map
          (toDirInPath REDS_MOD_CANONICAL_PATH_PFX (makeModName destinationPath))) ++
        extraCanonArchiveInstructions (fileTreeFromPaths files) →
      (∀ f ∈ relocated, f ≠ "") →
      lpre (REDS_MOD_CANONICAL_PATH_PFX ++ sepStr ++ makeModName destinationPath
          ++ sepStr).data i.destOf.data = true := by
    intro relocated him hrel
    rcases List.mem_append.mp him with hi1 | hi2
    · unfold instructionsForSourceToDestPairs at hi1
      rw [List.mem_map] at hi1
      obtain ⟨p, hp, hip⟩ := hi1
      rw [List.mem_filter] at hp
      obtain ⟨hpmem, hpfil⟩ := hp
      rw [List.mem_map] at hpmem
      obtain ⟨f, hf, hpf⟩ := hpmem
      subst hpf
      subst hip
      have hf0 : f ≠ "" := hrel f hf
      have hfe : endsWithSepB f = false := by
        simpa [toDirInPath] using hpfil
      simpa [VortexInstruction.destOf, toDirInPath] using
        toDirInPath_dest_under (makeModName destinationPath) f hname1 hname2 hf0 hfe
    · unfold extraCanonArchiveInstructions instructionsForSameSourceAndDestPaths
        instructionsForSourceToDestPairs at hi2
      rw [List.mem_map] at hi2
      obtain ⟨p, hp, hip⟩ := hi2
      rw [List.mem_filter] at hp
      obtain ⟨hpm, _⟩ := hp
      rw [List.mem_map] at hpm
      obtain ⟨f, _, hpf⟩ := hpm
      subst hpf
      subst hip
      exact absurd rfl hne
  rcases htriple with ⟨hT, hB, hC⟩ | ⟨hT, hB, hC⟩
  · rw [installRedscriptMod_eq_basedir files destinationPath hT hB hC] at hres
    injection hres with hinstr
    rw [← hinstr] at hi
    exact hmain _ hi (fun f hf => hwf f (filesUnder_subset hf))
  · rw [installRedscriptMod_eq_toplevel files destinationPath hT hB hC] at hres
    injection hres with hinstr
    rw [← hinstr] at hi
    exact hmain _ hi (fun f hf => hwf f (filesUnder_subset hf))

/-- C9 witness: the basedir-layout mod of spec scenario 2 relocates its .reds file under
    r6 scripts MyMod, MyMod being the destination basename MyMod.installing with the
    suffix stripped. -/
theorem c9_witness :
    lpre (REDS_MOD_CANONICAL_PATH_PFX ++ sepStr ++
        makeModName "C:\\tmp\\MyMod.installing" ++ sepStr).data
      "r6\\scripts\\MyMod\\Foo.reds".data = true :=
  c9_relocation_under_synthesized_moddir
    ["r6\\scripts\\Foo.reds", "archive\\pc\\mod\\Foo.archive"]
    "C:\\tmp\\MyMod.installing"
    [VortexInstruction.copy "r6\\scripts\\Foo.reds" "r6\\scripts\\MyMod\\Foo.reds",
      VortexInstruction.copy "archive\\pc\\mod\\Foo.archive"
        "archive\\pc\\mod\\Foo.archive"]
    (by decide) (by decide) (by decide) (Or.inl (by decide)) (by decide) (by decide)
    (VortexInstruction.copy "r6\\scripts\\Foo.reds" "r6\\scripts\\MyMod\\Foo.reds")
    (by decide) (by decide)

theorem strAppend_left_cancel {a b c : String} (h : a ++ b = a ++ c) : b = c := by
  apply String.ext
  have hd := congrArg String.data h
  rw [strData_append, strData_append] at hd
  exact List.append_cancel_left hd

theorem strAppend_ne_empty_right (a : String) {b : String} (hb : b ≠ "") : a ++ b ≠ "" := by
  intro he
  have hd := congrArg String.data he
  rw [strData_append] at hd
  exact hb (String.ext (List.append_eq_nil.mp hd).2)

theorem extnameStr_append_of_endsSep {a : String} (b : String)
    (ha : endsWithSepB a = true) : extnameStr (a ++ b) = extnameStr b := by
  obtain ⟨init, hinit⟩ : ∃ init, a.data = init ++ [sepChar] := by
    cases hr : a.data.reverse with
    | nil =>
      unfold endsWithSepB at ha
      rw [hr] at ha
      simp at ha
    | cons c t =>
      unfold endsWithSepB at ha
      rw [hr] at ha
      simp at ha
      refine ⟨t.reverse, ?_⟩
      have := congrArg List.reverse hr
      simpa [ha] using this
  unfold extnameStr
  rw [strData_append, hinit, List.append_assoc, List.singleton_append,
    extnameChars_append_sep]

theorem endsWithSepB_eq_false_of_extname_ne {s : String} (h : extnameStr s ≠ "") :
    endsWithSepB s = false := by
  cases he : endsWithSepB s with
  | false => rfl
  | true =>
    exfalso
    apply h
    unfold endsWithSepB at he
    cases hr : s.data.reverse with
    | nil => rw [hr] at he; simp at he
    | cons c t =>
      rw [hr] at he
      simp at he
      have hb : basenameChars s.data = [] := by
        unfold basenameChars
        rw [hr, he]
        simp [List.takeWhile_cons]
      unfold extnameStr extnameChars
      rw [hb]
      simp

theorem map_moveFromTo_self (d : String) (l : List String) :
    l.map (moveFromTo d d) = l.map (fun v => (v, v)) := by
  apply List.map_congr_left
  intro v _
  unfold moveFromTo
  have : replaceFirstStr v d d = v := by
    apply String.ext
    exact replaceFirstChars_self _ _
  rw [this]

theorem filterMap_virtualPair (destArchDir : String) (pairs : List (String × String)) :
    List.filterMap (virtualPairOf destArchDir)
      (pairs.map (fun p =>
        VortexInstruction.copy p.1 (ARCHIVE_MOD_CANONICAL_PFX ++ p.2))) =
    pairs.map (fun p =>
      (replaceFirstStr (ARCHIVE_MOD_CANONICAL_PFX ++ p.2) ARCHIVE_MOD_CANONICAL_PFX
        destArchDir, p.1)) := by
  induction pairs with
  | nil => rfl
  | cons p ps ih =>
    simp only [List.map_cons, List.filterMap_cons, virtualPairOf, ih]

theorem mapBackToRealSource_copy_of_get {pairsV : List (String × String)}
    {s r : String} (h : jsMapGet pairsV s = some r) (d : String) :
    mapBackToRealSource pairsV (VortexInstruction.copy s d) =
      VortexInstruction.copy r d := by
  have he : mapBackToRealSource pairsV (VortexInstruction.copy s d) =
      match jsMapGet pairsV s with
      | some real => VortexInstruction.copy real d
      | none => VortexInstruction.copy s d := rfl
  rw [he, h]

set_option maxHeartbeats 1000000 in
/-- C6: with the autoconvert feature enabled, transformToREDmodArchiveInstructions on
    canonical (non-XL) archive instructions (copies of validly-extensioned archive files
    under the canonical archive prefix, with distinct destinations) produces the
    REDmod-transformed instruction set: every original copy keeps its source and has its
    destination rewritten from the archive canonical prefix to mods taggedName archives,
    plus a generatefile instruction carrying the synthesized info.json (tagged name and
    mod version) at mods taggedName info.json, with the autoconverted notification. -/
theorem c6_autoconvert_canonical (features : Features) (modInfo : ModInfo)
    (pairs : List (String × String))
    (hfeat : features.REDmodAutoconvertArchives = Feature.Enabled)
    (hname : sepChar ∉ modInfo.name.data)
    (hexts : ∀ p ∈ pairs, matchREDmodArchive p.2 = true ∧ p.2 ≠ "")
    (hnodup : (pairs.map Prod.snd).Nodup) :
    transformToREDmodArchiveInstructions features modInfo
        ⟨InstrKind.archiveCanon,
          pairs.map (fun p =>
            VortexInstruction.copy p.1 (ARCHIVE_MOD_CANONICAL_PFX ++ p.2))⟩ =
      ⟨.ok ⟨InstrKind.redmodTransformedArchive,
          pairs.map (fun p => VortexInstruction.copy p.1
            (REDMOD_BASEDIR ++ sepStr ++ (modInfo.name ++ "_autoconverted") ++ sepStr ++
              REDMOD_ARCHIVES_DIRNAME ++ sepStr ++ p.2)) ++
          [VortexInstruction.generatefile
            (jsonppInfo ⟨modInfo.name ++ "_autoconverted", modInfo.version⟩)
            (REDMOD_BASEDIR ++ sepStr ++ (modInfo.name ++ "_autoconverted") ++ sepStr ++
              REDMOD_INFO_FILENAME)]⟩,
        [InfoNotification.REDmodArchiveAutoconverted]⟩ := by
  have hN0 : (modInfo.name ++ "_autoconverted") ≠ "" :=
    strAppend_ne_empty_right _ (by decide)
  have hN2 : sepChar ∉ (modInfo.name ++ "_autoconverted").data := by
    rw [strData_append]
    intro hm
    rcases List.mem_append.mp hm with h | h
    · exact hname h
    · revert h; decide
  have hNdata : (modInfo.name ++ "_autoconverted").data ≠ [] := (str_ne_empty_iff _).mp hN0
  have hD : joinP (joinP REDMOD_BASEDIR (modInfo.name ++ "_autoconverted")) sepStr =
      REDMOD_BASEDIR ++ sepStr ++ (modInfo.name ++ "_autoconverted") ++ sepStr := by
    rw [joinP_eq_sep_join (by decide) hN0 (by decide)
      (startsWithSepB_eq_false_of_not_mem hN2)]
    exact joinP_sep_right (strAppend_ne_empty_right _ hN0)
      (by rw [endsWithSepB_append _ hNdata]
          exact endsWithSepB_eq_false_of_not_mem hN2)
  have hDne : (REDMOD_BASEDIR ++ sepStr ++ (modInfo.name ++ "_autoconverted") ++ sepStr)
      ≠ "" := strAppend_ne_empty_right _ (by decide)
  have hDends : endsWithSepB
      (REDMOD_BASEDIR ++ sepStr ++ (modInfo.name ++ "_autoconverted") ++ sepStr)
      = true := by
    rw [endsWithSepB_append _ (show (sepStr : String).data ≠ [] by decide)]
    decide
  have hArchDir : joinP
      (REDMOD_BASEDIR ++ sepStr ++ (modInfo.name ++ "_autoconverted") ++ sepStr)
      REDMOD_ARCHIVES_DIRNAME =
      REDMOD_BASEDIR ++ sepStr ++ (modInfo.name ++ "_autoconverted") ++ sepStr ++
        REDMOD_ARCHIVES_DIRNAME :=
    joinP_endsSep hDne (by decide) hDends (by decide)
  have hArchDirNe : (REDMOD_BASEDIR ++ sepStr ++ (modInfo.name ++ "_autoconverted") ++
      sepStr ++ REDMOD_ARCHIVES_DIRNAME) ≠ "" := strAppend_ne_empty_right _ (by decide)
  have hArchDirEnds : endsWithSepB (REDMOD_BASEDIR ++ sepStr ++
      (modInfo.name ++ "_autoconverted") ++ sepStr ++ REDMOD_ARCHIVES_DIRNAME)
      = false := by
    rw [endsWithSepB_append _
      (show (REDMOD_ARCHIVES_DIRNAME : String).data ≠ [] by decide)]
    decide
  have hASep : joinP (REDMOD_BASEDIR ++ sepStr ++ (modInfo.name ++ "_autoconverted") ++
      sepStr ++ REDMOD_ARCHIVES_DIRNAME) sepStr =
      REDMOD_BASEDIR ++ sepStr ++ (modInfo.name ++ "_autoconverted") ++ sepStr ++
        REDMOD_ARCHIVES_DIRNAME ++ sepStr :=
    joinP_sep_right hArchDirNe hArchDirEnds
  have hAends : endsWithSepB (REDMOD_BASEDIR ++ sepStr ++
      (modInfo.name ++ "_autoconverted") ++ sepStr ++ REDMOD_ARCHIVES_DIRNAME ++ sepStr)
      = true := by
    rw [endsWithSepB_append _ (show (sepStr : String).data ≠ [] by decide)]
    decide
  have hInfoDest : joinP
      (REDMOD_BASEDIR ++ sepStr ++ (modInfo.name ++ "_autoconverted") ++ sepStr)
      REDMOD_INFO_FILENAME =
      REDMOD_BASEDIR ++ sepStr ++ (modInfo.name ++ "_autoconverted") ++ sepStr ++
        REDMOD_INFO_FILENAME :=
    joinP_endsSep hDne (by decide) hDends (by decide)
  have hvirt : ∀ r : String,
      replaceFirstStr (ARCHIVE_MOD_CANONICAL_PFX ++ r) ARCHIVE_MOD_CANONICAL_PFX
        (REDMOD_BASEDIR ++ sepStr ++ (modInfo.name ++ "_autoconverted") ++ sepStr ++
          REDMOD_ARCHIVES_DIRNAME ++ sepStr) =
      REDMOD_BASEDIR ++ sepStr ++ (modInfo.name ++ "_autoconverted") ++ sepStr ++
        REDMOD_ARCHIVES_DIRNAME ++ sepStr ++ r := by
    intro r
    apply String.ext
    show replaceFirstChars ARCHIVE_MOD_CANONICAL_PFX.data
        (REDMOD_BASEDIR ++ sepStr ++ (modInfo.name ++ "_autoconverted") ++ sepStr ++
          REDMOD_ARCHIVES_DIRNAME ++ sepStr).data
        ((ARCHIVE_MOD_CANONICAL_PFX ++ r).data) =
      (REDMOD_BASEDIR ++ sepStr ++ (modInfo.name ++ "_autoconverted") ++ sepStr ++
        REDMOD_ARCHIVES_DIRNAME ++ sepStr ++ r).data
    rw [show (ARCHIVE_MOD_CANONICAL_PFX ++ r).data =
      ARCHIVE_MOD_CANONICAL_PFX.data ++ r.data from strData_append _ _]
    rw [replaceFirstChars_of_pre _ _ _ (by decide)]
    exact (strData_append _ _).symm
  have hpairsV2 : pairs.map (fun p =>
      (replaceFirstStr (ARCHIVE_MOD_CANONICAL_PFX ++ p.2) ARCHIVE_MOD_CANONICAL_PFX
        (REDMOD_BASEDIR ++ sepStr ++ (modInfo.name ++ "_autoconverted") ++ sepStr ++
          REDMOD_ARCHIVES_DIRNAME ++ sepStr), p.1)) =
      pairs.map (fun p => (REDMOD_BASEDIR ++ sepStr ++ (modInfo.name ++ "_autoconverted")
        ++ sepStr ++ REDMOD_ARCHIVES_DIRNAME ++ sepStr ++ p.2, p.1)) :=
    List.map_congr_left (fun p _ => by rw [hvirt p.2])
  have hfsts : (pairs.map (fun p =>
      (REDMOD_BASEDIR ++ sepStr ++ (modInfo.name ++ "_autoconverted") ++ sepStr ++
        REDMOD_ARCHIVES_DIRNAME ++ sepStr ++ p.2, p.1))).map Prod.fst =
      pairs.map (fun p => REDMOD_BASEDIR ++ sepStr ++ (modInfo.name ++ "_autoconverted")
        ++ sepStr ++ REDMOD_ARCHIVES_DIRNAME ++ sepStr ++ p.2) := by
    rw [List.map_map]
    rfl
  have hkeysN : (pairs.map (fun p => REDMOD_BASEDIR ++ sepStr ++
      (modInfo.name ++ "_autoconverted") ++ sepStr ++ REDMOD_ARCHIVES_DIRNAME ++ sepStr
      ++ p.2)).Nodup := by
    have hsplit : pairs.map (fun p => REDMOD_BASEDIR ++ sepStr ++
        (modInfo.name ++ "_autoconverted") ++ sepStr ++ REDMOD_ARCHIVES_DIRNAME ++ sepStr
        ++ p.2) =
        (pairs.map Prod.snd).map (fun r => REDMOD_BASEDIR ++ sepStr ++
          (modInfo.name ++ "_autoconverted") ++ sepStr ++ REDMOD_ARCHIVES_DIRNAME ++
          sepStr ++ r) := by
      rw [List.map_map]
      rfl
    rw [hsplit]
    exact hnodup.map (fun r1 r2 h => strAppend_left_cancel h)
  have hjsKeys : jsMapKeys (pairs.map (fun p =>
      (REDMOD_BASEDIR ++ sepStr ++ (modInfo.name ++ "_autoconverted") ++ sepStr ++
        REDMOD_ARCHIVES_DIRNAME ++ sepStr ++ p.2, p.1))) =
      pairs.map (fun p => REDMOD_BASEDIR ++ sepStr ++ (modInfo.name ++ "_autoconverted")
        ++ sepStr ++ REDMOD_ARCHIVES_DIRNAME ++ sepStr ++ p.2) := by
    unfold jsMapKeys
    rw [hfsts]
    exact dedupFirst_of_nodup hkeysN
  have hEndsAll : ∀ p ∈ pairs, endsWithSepB (REDMOD_BASEDIR ++ sepStr ++
      (modInfo.name ++ "_autoconverted") ++ sepStr ++ REDMOD_ARCHIVES_DIRNAME ++ sepStr
      ++ p.2) = false := by
    intro p hp
    rw [endsWithSepB_append _ ((str_ne_empty_iff _).mp (hexts p hp).2)]
    apply endsWithSepB_eq_false_of_extname_ne
    intro he
    have h1 := (hexts p hp).1
    unfold matchREDmodArchive at h1
    rw [he] at h1
    exact absurd h1 (by decide)
  have hfilesU : filesUnder (REDMOD_BASEDIR ++ sepStr ++
      (modInfo.name ++ "_autoconverted") ++ sepStr ++ REDMOD_ARCHIVES_DIRNAME)
      matchREDmodArchive
      (pairs.map (fun p => REDMOD_BASEDIR ++ sepStr ++ (modInfo.name ++ "_autoconverted")
        ++ sepStr ++ REDMOD_ARCHIVES_DIRNAME ++ sepStr ++ p.2)) =
      pairs.map (fun p => REDMOD_BASEDIR ++ sepStr ++ (modInfo.name ++ "_autoconverted")
        ++ sepStr ++ REDMOD_ARCHIVES_DIRNAME ++ sepStr ++ p.2) := by
    unfold filesUnder
    rw [List.filter_eq_self]
    intro v hv
    rw [List.mem_map] at hv
    obtain ⟨p, hp, rfl⟩ := hv
    have h1 : endsWithSepB (REDMOD_BASEDIR ++ sepStr ++
        (modInfo.name ++ "_autoconverted") ++ sepStr ++ REDMOD_ARCHIVES_DIRNAME ++ sepStr
        ++ p.2) = false := hEndsAll p hp
    have h2 : underDirB (REDMOD_BASEDIR ++ sepStr ++ (modInfo.name ++ "_autoconverted")
        ++ sepStr ++ REDMOD_ARCHIVES_DIRNAME)
        (REDMOD_BASEDIR ++ sepStr ++ (modInfo.name ++ "_autoconverted") ++ sepStr ++
          REDMOD_ARCHIVES_DIRNAME ++ sepStr ++ p.2) = true := by
      unfold underDirB
      rw [if_neg hArchDirNe]
      unfold dirPfxChars
      rw [if_neg hArchDirNe, hArchDirEnds]
      simp only [Bool.false_eq_true, if_false]
      have hdp : (REDMOD_BASEDIR ++ sepStr ++ (modInfo.name ++ "_autoconverted") ++
          sepStr ++ REDMOD_ARCHIVES_DIRNAME).data ++ [sepChar] =
          (REDMOD_BASEDIR ++ sepStr ++ (modInfo.name ++ "_autoconverted") ++ sepStr ++
            REDMOD_ARCHIVES_DIRNAME ++ sepStr).data := by
        simp only [strData_append, List.append_assoc,
          show (sepStr : String).data = [sepChar] from by decide]
      rw [hdp, strData_append]
      exact lpre_append _ _
    have h3 : matchREDmodArchive (REDMOD_BASEDIR ++ sepStr ++
        (modInfo.name ++ "_autoconverted") ++ sepStr ++ REDMOD_ARCHIVES_DIRNAME ++ sepStr
        ++ p.2) = true := by
      unfold matchREDmodArchive
      rw [extnameStr_append_of_endsSep _ hAends]
      exact (hexts p hp).1
    simp [h1, h2, h3]
  have hmoveEq : instructionsToMoveAllFromSourceToDestination
      (REDMOD_BASEDIR ++ sepStr ++ (modInfo.name ++ "_autoconverted") ++ sepStr)
      (REDMOD_BASEDIR ++ sepStr ++ (modInfo.name ++ "_autoconverted") ++ sepStr)
      (pairs.map (fun p => REDMOD_BASEDIR ++ sepStr ++ (modInfo.name ++ "_autoconverted")
        ++ sepStr ++ REDMOD_ARCHIVES_DIRNAME ++ sepStr ++ p.2)) =
      (pairs.map (fun p => REDMOD_BASEDIR ++ sepStr ++ (modInfo.name ++ "_autoconverted")
        ++ sepStr ++ REDMOD_ARCHIVES_DIRNAME ++ sepStr ++ p.2)).map
        (fun v => VortexInstruction.copy v v) := by
    unfold instructionsToMoveAllFromSourceToDestination instructionsForSourceToDestPairs
    rw [map_moveFromTo_self]
    have hf : ((pairs.map (fun p => REDMOD_BASEDIR ++ sepStr ++
        (modInfo.name ++ "_autoconverted") ++ sepStr ++ REDMOD_ARCHIVES_DIRNAME ++ sepStr
        ++ p.2)).map (fun v => (v, v))).filter (fun q => !endsWithSepB q.1) =
        (pairs.map (fun p => REDMOD_BASEDIR ++ sepStr ++
          (modInfo.name ++ "_autoconverted") ++ sepStr ++ REDMOD_ARCHIVES_DIRNAME ++
          sepStr ++ p.2)).map (fun v => (v, v)) := by
      rw [List.filter_eq_self]
      intro q hq
      rw [List.mem_map] at hq
      obtain ⟨v, hv, rfl⟩ := hq
      rw [List.mem_map] at hv
      obtain ⟨p, hp, rfl⟩ := hv
      simp [hEndsAll p hp]
    rw [hf, List.map_map]
    rfl
  have harch : archiveLayoutAndValidation
      ⟨⟨modInfo.name ++ "_autoconverted", modInfo.version⟩,
        REDMOD_BASEDIR ++ sepStr ++ (modInfo.name ++ "_autoconverted") ++ sepStr,
        REDMOD_BASEDIR ++ sepStr ++ (modInfo.name ++ "_autoconverted") ++ sepStr,
        fileTreeFromPaths (pairs.map (fun p => REDMOD_BASEDIR ++ sepStr ++
          (modInfo.name ++ "_autoconverted") ++ sepStr ++ REDMOD_ARCHIVES_DIRNAME ++
          sepStr ++ p.2))⟩ =
      Except.ok ((pairs.map (fun p => REDMOD_BASEDIR ++ sepStr ++
        (modInfo.name ++ "_autoconverted") ++ sepStr ++ REDMOD_ARCHIVES_DIRNAME ++ sepStr
        ++ p.2)).map (fun v => VortexInstruction.copy v v)) := by
    unfold archiveLayoutAndValidation fileTreeFromPaths
    dsimp only
    rw [hArchDir, hfilesU, hmoveEq]
  have hmapback : ((pairs.map (fun p => REDMOD_BASEDIR ++ sepStr ++
      (modInfo.name ++ "_autoconverted") ++ sepStr ++ REDMOD_ARCHIVES_DIRNAME ++ sepStr
      ++ p.2)).map (fun v => VortexInstruction.copy v v)).map
      (mapBackToRealSource (pairs.map (fun p => (REDMOD_BASEDIR ++ sepStr ++
        (modInfo.name ++ "_autoconverted") ++ sepStr ++ REDMOD_ARCHIVES_DIRNAME ++ sepStr
        ++ p.2, p.1)))) =
      pairs.map (fun p => VortexInstruction.copy p.1 (REDMOD_BASEDIR ++ sepStr ++
        (modInfo.name ++ "_autoconverted") ++ sepStr ++ REDMOD_ARCHIVES_DIRNAME ++ sepStr
        ++ p.2)) := by
    rw [List.map_map, List.map_map]
    apply List.map_congr_left
    intro p hp
    have hN : ((pairs.map (fun p => (REDMOD_BASEDIR ++ sepStr ++
        (modInfo.name ++ "_autoconverted") ++ sepStr ++ REDMOD_ARCHIVES_DIRNAME ++ sepStr
        ++ p.2, p.1))).map Prod.fst).Nodup := by
      rw [hfsts]
      exact hkeysN
    have hmem : (REDMOD_BASEDIR ++ sepStr ++ (modInfo.name ++ "_autoconverted") ++ sepStr
        ++ REDMOD_ARCHIVES_DIRNAME ++ sepStr ++ p.2, p.1) ∈
        pairs.map (fun q => (REDMOD_BASEDIR ++ sepStr ++
          (modInfo.name ++ "_autoconverted") ++ sepStr ++ REDMOD_ARCHIVES_DIRNAME ++
          sepStr ++ q.2, q.1)) :=
      List.mem_map.mpr ⟨p, hp, rfl⟩
    exact mapBackToRealSource_copy_of_get (jsMapGet_of_nodup hN hmem) _
  have hg2 : (InstrKind.archiveCanon == InstrKind.archiveXL) = false := by decide
  unfold transformToREDmodArchiveInstructions
  rw [hfeat]
  simp only [bne_self_eq_false, Bool.false_eq_true, if_false, hg2,
    modInfoTaggedAsAutoconverted]
  rw [hD, hArchDir, hASep, hInfoDest, filterMap_virtualPair, hpairsV2, hjsKeys, harch]
  dsimp only
  rw [hmapback]

/-- C6 witness: the spec scenario 7 mod X converted concretely. -/
theorem c6_witness :
    transformToREDmodArchiveInstructions ⟨Feature.Enabled⟩ ⟨"X", "1.0"⟩
        ⟨InstrKind.archiveCanon,
          [VortexInstruction.copy "archive\\pc\\mod\\X.archive"
            "archive\\pc\\mod\\X.archive"]⟩ =
      ⟨.ok ⟨InstrKind.redmodTransformedArchive,
          [VortexInstruction.copy "archive\\pc\\mod\\X.archive"
            "mods\\X_autoconverted\\archives\\X.archive",
          VortexInstruction.generatefile (jsonppInfo ⟨"X_autoconverted", "1.0"⟩)
            "mods\\X_autoconverted\\info.json"]⟩,
        [InfoNotification.REDmodArchiveAutoconverted]⟩ := by
  have h := c6_autoconvert_canonical ⟨Feature.Enabled⟩ ⟨"X", "1.0"⟩
    [("archive\\pc\\mod\\X.archive", "X.archive")] rfl (by decide) (by decide) (by decide)
  have h0 : (⟨InstrKind.archiveCanon,
      [VortexInstruction.copy "archive\\pc\\mod\\X.archive"
        "archive\\pc\\mod\\X.archive"]⟩ : Instructions) =
      ⟨InstrKind.archiveCanon,
        [("archive\\pc\\mod\\X.archive", "X.archive")].map (fun p =>
          VortexInstruction.copy p.1 (ARCHIVE_MOD_CANONICAL_PFX ++ p.2))⟩ := by decide
  rw [h0]
  exact h.trans (by decide)
